import Mathlib

/-!
Verification of the teleops alert-correlation and baseline-RCA engine.

Shallow embedding of:
- src/teleops/incident_corr/correlator.py  (percentile, grouping, incident selection)
- src/teleops/llm/rca.py                   (rule table, baseline hypothesis matcher)
- src/scripts/evaluate.py                  (quality metrics aggregation)

Modelling conventions:
- Python floats are modelled as exact rationals.
- datetimes are modelled as rational timestamps in seconds; subtraction of
  datetimes followed by total_seconds() becomes rational subtraction.
- Python dicts with string keys are association lists; dict.get(k, d) is
  lookup with default.
- None-able values are Option; Python truthiness of an optional list
  (None and [] both falsy) is the function pyTruthy.
- Values read from the wall clock or the random generator (datetime.now,
  uuid4) are passed in as explicit parameters.
-/

namespace TeleOps

/-- Python truthiness of an optional list: None and the empty list are falsy. -/
def pyTruthy {β : Type} (x : Option (List β)) : Bool :=
  match x with
  | none => false
  | some l => !l.isEmpty

/-- ASCII lowercasing, modelling str.lower on the rule keywords and corpora:
each character is lowercased in place. -/
def pyLower (s : String) : String :=
  String.mk (s.data.map Char.toLower)

/-! ## correlator.py: _percentile -/

/-- Embedding of correlator._percentile. The source sorts a copy of the input
(values_sorted = sorted(values)), returns 0.0 on empty input, the unique
element on a singleton, the minimum for pct <= 0, the maximum for pct >= 100,
and otherwise linearly interpolates at fractional rank k = (n-1) * pct/100
between positions f = int(k) and c = min(f+1, n-1).  In that branch k > 0, so
Python int() truncation coincides with the floor. -/
def _percentile (values : List Int) (pct : ℚ) : ℚ :=
  let values_sorted := List.insertionSort (· ≤ ·) values
  if values_sorted.length = 0 then 0
  else if values_sorted.length = 1 then (values_sorted.getD 0 0 : ℚ)
  else if pct ≤ 0 then (values_sorted.getD 0 0 : ℚ)
  else if 100 ≤ pct then (values_sorted.getD (values_sorted.length - 1) 0 : ℚ)
  else
    let k : ℚ := ((values_sorted.length - 1 : ℕ) : ℚ) * (pct / 100)
    let f : ℕ := (⌊k⌋).toNat
    let c : ℕ := min (f + 1) (values_sorted.length - 1)
    if f = c then (values_sorted.getD f 0 : ℚ)
    else (values_sorted.getD f 0 : ℚ) * ((c : ℚ) - k)
       + (values_sorted.getD c 0 : ℚ) * (k - (f : ℚ))

/-- State-passing view of _percentile: the source reads the input list only
through sorted(values), which copies, so the caller's list is returned
unchanged alongside the result. -/
def percentileRun (values : List Int) (pct : ℚ) : ℚ × List Int :=
  (_percentile values pct, values)

/-- Spec-side definition (from the words of §4.1): the value at fractional
rank k, linearly interpolated between the sorted elements at floor(k) and
ceil(k). -/
def interpolate (sorted : List Int) (k : ℚ) : ℚ :=
  (sorted.getD (⌊k⌋).toNat 0 : ℚ)
    + (k - (⌊k⌋ : ℚ)) * ((sorted.getD (⌈k⌉).toNat 0 : ℚ) - (sorted.getD (⌊k⌋).toNat 0 : ℚ))

/-! ## correlator.py: data model and correlate_alerts -/

/-- Fields of the Alert ORM row that correlate_alerts reads. -/
structure Alert where
  id : String
  timestamp : ℚ
  tags : Option (List (String × String))
  tenant_id : Option String
deriving DecidableEq, Inhabited

/-- Fields of the Incident ORM row as constructed by correlate_alerts. -/
structure Incident where
  id : String
  start_time : ℚ
  end_time : ℚ
  severity : String
  status : String
  related_alert_ids : List String
  summary : String
  suspected_root_cause : Option String
  impact_scope : Option String
  owner : Option String
  created_by : String
  tenant_id : Option String
deriving DecidableEq, Inhabited

/-- Correlation tag of an alert:
alert.tags.get("incident", "unknown") if alert.tags else "unknown". -/
def incidentTag (a : Alert) : String :=
  match a.tags with
  | none => "unknown"
  | some m => if m.isEmpty then "unknown" else (m.lookup "incident").getD "unknown"

/-- Distinct correlation tags in first-occurrence order: the key order of the
defaultdict built by the grouping loop. -/
def tagKeys (alerts : List Alert) : List String :=
  alerts.foldl (fun ks a => if incidentTag a ∈ ks then ks else ks ++ [incidentTag a]) []

/-- Group of a given tag: the alerts carrying that tag, in input order, as
appended by the grouping loop. -/
def tagGroup (alerts : List Alert) (t : String) : List Alert :=
  alerts.filter (fun a => incidentTag a = t)

/-- Embedding of the alerts_by_tag defaultdict: keys in insertion order, each
mapped to its group. -/
def alertsByTag (alerts : List Alert) : List (String × List Alert) :=
  (tagKeys alerts).map (fun t => (t, tagGroup alerts t))

/-- Comparison key of tagged_alerts.sort(key=lambda a: a.timestamp). -/
def tsLE (a b : Alert) : Prop := a.timestamp ≤ b.timestamp

instance : DecidableRel tsLE := fun a b => inferInstanceAs (Decidable (a.timestamp ≤ b.timestamp))

instance : IsTotal Alert tsLE := ⟨fun a b => le_total a.timestamp b.timestamp⟩

instance : IsTrans Alert tsLE := ⟨fun _ _ _ hab hbc => le_trans hab hbc⟩

/-- Embedding of _make_incident_id with the clock reading and the uuid hex
prefix passed in explicitly. -/
def _make_incident_id (tag : String) (ts : String) (short_hex : String) : String :=
  tag ++ "_" ++ ts ++ "_" ++ short_hex

/-- Alert selection at the top of correlate_alerts: the query is filtered by
Alert.id.in_(alert_ids) only when alert_ids is truthy (not None and not []). -/
def selectedAlerts (table : List Alert) (alert_ids : Option (List String)) : List Alert :=
  if pyTruthy alert_ids then table.filter (fun a => a.id ∈ alert_ids.getD []) else table

/-- Adaptive noise threshold of correlate_alerts: defined only when there are
at least two groups and their counts are not all equal, in which case it is
the 25th percentile of all groups' counts. -/
def noiseThreshold (groups : List (String × List Alert)) : Option ℚ :=
  let tag_counts := groups.map (fun g => ((g.2.length : ℕ) : Int))
  if 2 ≤ tag_counts.length ∧ tag_counts.min? ≠ tag_counts.max? then
    some (_percentile tag_counts 25)
  else none

/-- Body of the per-group loop of correlate_alerts: the three continue
branches (min-count, noise threshold, window span) return none; otherwise the
group is sorted by timestamp and an Incident is synthesized. -/
def groupIncident (window_minutes : Int) (min_alerts : ℕ) (threshold : Option ℚ)
    (ts short_hex : String) (tag : String) (tagged_alerts : List Alert) : Option Incident :=
  if tagged_alerts.length < min_alerts then none
  else if (match threshold with
           | some th => decide ((tagged_alerts.length : ℚ) ≤ th)
           | none => false) then none
  else
    let sorted := List.insertionSort tsLE tagged_alerts
    let start_time := (sorted.headD default).timestamp
    let end_time := (sorted.getLastD default).timestamp
    if (window_minutes : ℚ) * 60 < end_time - start_time then none
    else some
      { id := _make_incident_id tag ts short_hex
        start_time := start_time
        end_time := end_time
        severity := "critical"
        status := "open"
        related_alert_ids := sorted.map Alert.id
        summary := "Correlated incident for tag: " ++ tag
        suspected_root_cause := none
        impact_scope := some "network"
        owner := none
        created_by := "correlator"
        tenant_id := (sorted.headD default).tenant_id }

/-- Embedding of correlate_alerts. The alert table stands in for the query
result; the clock string and uuid hex are explicit parameters; the final
session.add/commit is persistence outside the engine. -/
def correlate_alerts (table : List Alert) (window_minutes : Int) (min_alerts : ℕ)
    (alert_ids : Option (List String)) (ts short_hex : String) : List Incident :=
  let alerts := selectedAlerts table alert_ids
  if alerts.isEmpty then []
  else
    let groups := alertsByTag alerts
    let threshold := noiseThreshold groups
    groups.filterMap (fun g => groupIncident window_minutes min_alerts threshold ts short_hex g.1 g.2)

/-! ## rca.py: rule table and baseline_rca -/

/-- One entry of the BASELINE_RULES table. -/
structure Rule where
  patterns : List String
  hypothesis : String
  confidence : ℚ
  evidence : String
deriving DecidableEq, Inhabited

/-- The BASELINE_RULES literal from rca.py, in table order. -/
def BASELINE_RULES : List Rule := [
  { patterns := ["dns", "servfail", "nx_domain", "resolver"]
    hypothesis := "authoritative DNS cluster outage in region-east"
    confidence := 0.60
    evidence := "DNS-related alerts: servfail spikes, NXDOMAIN increases, resolver timeouts" },
  { patterns := ["bgp", "route_withdrawal", "session_flap", "as65", "peering"]
    hypothesis := "unstable BGP session with upstream AS causing route flaps"
    confidence := 0.58
    evidence := "BGP session state changes, route withdrawals, prefix instability" },
  { patterns := ["fiber", "optical", "dwdm", "loss_of_signal", "link_down"]
    hypothesis := "fiber cut on metro ring segment causing optical link failure"
    confidence := 0.65
    evidence := "Optical NMS alerts: loss of signal, link down events on transport layer" },
  { patterns := ["control_plane", "cpu_spike", "freeze", "hang", "router"]
    hypothesis := "control plane freeze on core router causing forwarding issues"
    confidence := 0.55
    evidence := "Router CPU spikes, control plane unresponsive, routing updates stalled" },
  { patterns := ["ddos", "syn_flood", "traffic_spike", "scrubbing", "volumetric"]
    hypothesis := "volumetric DDoS attack targeting edge infrastructure"
    confidence := 0.70
    evidence := "Security monitor alerts: traffic spike, SYN flood indicators, scrubbing triggered" },
  { patterns := ["mpls", "vpn", "vrf", "route_leak", "l3vpn"]
    hypothesis := "VRF misconfiguration causing MPLS/L3VPN route leak"
    confidence := 0.52
    evidence := "MPLS alerts: route leak detected, VRF mismatch, unexpected prefix propagation" },
  { patterns := ["cdn", "cache", "stampede", "origin", "ttl"]
    hypothesis := "CDN cache stampede due to TTL misconfiguration"
    confidence := 0.58
    evidence := "CDN alerts: cache miss spike, origin latency increase, TTL-related errors" },
  { patterns := ["firewall", "blocked", "policy_violation", "rule"]
    hypothesis := "firewall rule misconfiguration blocking critical traffic"
    confidence := 0.62
    evidence := "Firewall alerts: blocked port events, policy violation logs" },
  { patterns := ["database", "db", "query_latency", "lock_waits", "contention"]
    hypothesis := "database contention causing latency spike on hosted applications"
    confidence := 0.55
    evidence := "Database alerts: query latency spikes, lock waits, connection pool exhaustion" },
  { patterns := ["peering", "congestion", "isp", "as64"]
    hypothesis := "congestion on ISP peering link causing packet loss"
    confidence := 0.57
    evidence := "Peering alerts: high latency, packet loss on ISP interconnect" },
  { patterns := ["packet_loss", "latency", "degradation", "network"]
    hypothesis := "link congestion on core-router-1 causing packet loss"
    confidence := 0.55
    evidence := "Network alerts: packet_loss/high_latency burst on core-router-1" }]

/-- Alert dictionary as consumed by baseline_rca: alert.get("alert_type", "")
and alert.get("message", "") read possibly-missing keys. -/
structure AlertD where
  alert_type : Option String
  message : Option String
deriving DecidableEq, Inhabited

/-- Corpus construction of baseline_rca: the lowercased summary, extended for
each of at most the first 20 alerts by a lowercased " type message" chunk. -/
def searchText (incident_summary : String) (alerts : Option (List AlertD)) : String :=
  let base := pyLower incident_summary
  if pyTruthy alerts then
    ((alerts.getD []).take 20).foldl
      (fun acc a =>
        acc ++ pyLower (" " ++ a.alert_type.getD "" ++ " " ++ a.message.getD ""))
      base
  else base

/-- Substring containment on character lists, modelling the Python operator
"pattern in search_text": the needle is a prefix of some suffix of the hay. -/
def containsSub (needle : List Char) : List Char → Bool
  | [] => needle.isEmpty
  | c :: rest => needle.isPrefixOf (c :: rest) || containsSub needle rest

/-- Match count of a rule: how many of its keyword patterns occur as
substrings of the corpus. -/
def countMatches (rule : Rule) (text : String) : ℕ :=
  rule.patterns.countP (fun p => containsSub p.data text.data)

/-- One iteration of the matching loop: a rule replaces the current best only
when its match count is strictly greater. -/
def selectStep (text : String) (acc : Option Rule × ℕ) (rule : Rule) : Option Rule × ℕ :=
  if acc.2 < countMatches rule text then (some rule, countMatches rule text) else acc

/-- The matching loop of baseline_rca: matched_rule starts at None and
match_count at 0. -/
def selectRule (rules : List Rule) (text : String) : Option Rule × ℕ :=
  rules.foldl (selectStep text) (none, 0)

/-- Return value of baseline_rca; confidence_scores is the one-entry dict and
the evidence dict is split into its two fields. -/
structure RcaResult where
  incident_summary : String
  hypotheses : List String
  confidence_scores : List (String × ℚ)
  evidence_alerts : String
  evidence_match_count : ℕ
  generated_at : String
  model : String
deriving DecidableEq

/-- Embedding of baseline_rca over an explicit rule table (the source reads
the module-level BASELINE_RULES); now_iso is the datetime.now(...).isoformat()
reading. When no rule was matched the last rule of the table is used. -/
def baseline_rca_with (rules : List Rule) (incident_summary : String)
    (alerts : Option (List AlertD)) (now_iso : String) : RcaResult :=
  let text := searchText incident_summary alerts
  let sel := selectRule rules text
  let matched_rule := sel.1.getD (rules.getLastD default)
  { incident_summary := incident_summary
    hypotheses := [matched_rule.hypothesis]
    confidence_scores := [(matched_rule.hypothesis, matched_rule.confidence)]
    evidence_alerts := matched_rule.evidence
    evidence_match_count := sel.2
    generated_at := now_iso
    model := "baseline-rules" }

/-- baseline_rca as shipped: the matching loop run over BASELINE_RULES. -/
def baseline_rca (incident_summary : String) (alerts : Option (List AlertD))
    (now_iso : String) : RcaResult :=
  baseline_rca_with BASELINE_RULES incident_summary alerts now_iso

/-- Model of importing the rule table: rca.py binds BASELINE_RULES as a plain
list literal and runs no validation of any kind at load time, so loading
succeeds for every table, whatever it contains. -/
def loadRuleTable (rules : List Rule) : Except String (List Rule) :=
  Except.ok rules

/-- A structurally invalid rule: its pattern list is empty. -/
def c9BadRule : Rule :=
  { patterns := [], hypothesis := "bad rule", confidence := 1/2, evidence := "no evidence" }

/-! ## evaluate.py: compute_quality_metrics -/

/-- The two hypothesis sources iterated over by compute_quality_metrics. -/
inductive Source
  | baseline
  | llm
deriving DecidableEq

/-- Per-scenario record fields read by compute_quality_metrics; a missing or
null score/confidence is none. -/
structure ScenarioRec where
  baseline_score : Option ℚ
  baseline_confidence : Option ℚ
  llm_score : Option ℚ
  llm_confidence : Option ℚ
deriving DecidableEq, Inhabited

/-- s.get(score_key) of a record. -/
def scoreOf : Source → ScenarioRec → Option ℚ
  | .baseline, s => s.baseline_score
  | .llm, s => s.llm_score

/-- s.get(conf_key) of a record. -/
def confOf : Source → ScenarioRec → Option ℚ
  | .baseline, s => s.baseline_confidence
  | .llm, s => s.llm_confidence

/-- Threshold constant CORRECT_THRESHOLD = 0.75. -/
def CORRECT_THRESHOLD : ℚ := 0.75

/-- Threshold constant WRONG_CONFIDENT_SIM = 0.5. -/
def WRONG_CONFIDENT_SIM : ℚ := 0.5

/-- Threshold constant WRONG_CONFIDENT_CONF = 0.7. -/
def WRONG_CONFIDENT_CONF : ℚ := 0.7

/-- Round-half-to-even to the nearest integer, the rounding used by Python's
round builtin. -/
def roundHalfEven (x : ℚ) : ℤ :=
  let f := ⌊x⌋
  if x - (f : ℚ) < 1/2 then f
  else if (1 : ℚ)/2 < x - (f : ℚ) then f + 1
  else if Even f then f else f + 1

/-- round(x, 3) on an exact rational. -/
def pyRound3 (x : ℚ) : ℚ :=
  ((roundHalfEven (x * 1000) : ℤ) : ℚ) / 1000

/-- Arithmetic mean, modelling statistics.mean. -/
def listMean (l : List ℚ) : ℚ :=
  l.sum / (l.length : ℚ)

/-- The per-source metrics dict built by compute_quality_metrics. -/
structure SourceMetrics where
  precision : ℚ
  «recall» : ℚ
  wrong_but_confident_rate : ℚ
  wrong_but_confident_count : ℕ
  avg_confidence_correct : Option ℚ
  avg_confidence_incorrect : Option ℚ
  total_attempted : ℕ
  total_correct : ℕ
deriving DecidableEq

/-- Embedding of compute_quality_metrics for one source: with no attempted
record the result is None; otherwise the aggregate metrics are computed over
the attempted/correct/incorrect/wrong-confident sublists.  The dead
"if attempted else 0.0" ternaries of the source (attempted is non-empty past
the guard, scenarios therefore also) are dropped. -/
def compute_quality_metrics (scenarios : List ScenarioRec) (source : Source) :
    Option SourceMetrics :=
  let attempted := scenarios.filter (fun s => (scoreOf source s).isSome)
  if attempted.isEmpty then none
  else
    let correct := attempted.filter (fun s => CORRECT_THRESHOLD ≤ (scoreOf source s).getD 0)
    let incorrect := attempted.filter (fun s => (scoreOf source s).getD 0 < CORRECT_THRESHOLD)
    let wrong_confident := attempted.filter (fun s =>
      (scoreOf source s).getD 0 < WRONG_CONFIDENT_SIM
        ∧ WRONG_CONFIDENT_CONF ≤ (confOf source s).getD 0)
    let correct_confs :=
      (correct.filter (fun s => (confOf source s).isSome)).map (fun s => (confOf source s).getD 0)
    let incorrect_confs :=
      (incorrect.filter (fun s => (confOf source s).isSome)).map (fun s => (confOf source s).getD 0)
    some
      { precision := pyRound3 ((correct.length : ℚ) / (attempted.length : ℚ))
        «recall» := pyRound3 ((correct.length : ℚ) / (scenarios.length : ℚ))
        wrong_but_confident_rate := pyRound3 ((wrong_confident.length : ℚ) / (attempted.length : ℚ))
        wrong_but_confident_count := wrong_confident.length
        avg_confidence_correct :=
          if correct_confs.isEmpty then none else some (pyRound3 (listMean correct_confs))
        avg_confidence_incorrect :=
          if incorrect_confs.isEmpty then none else some (pyRound3 (listMean incorrect_confs))
        total_attempted := attempted.length
        total_correct := correct.length }

/-! ## Concrete fixtures for closed witness and counterexample theorems -/

/-- An attempted record that is wrong (score 0) and confident (confidence 1)
for the baseline source. -/
def c7Bad : ScenarioRec :=
  { baseline_score := some 0, baseline_confidence := some 1,
    llm_score := none, llm_confidence := none }

/-- An attempted record that is correct (score 1) for the baseline source. -/
def c7Good : ScenarioRec :=
  { baseline_score := some 1, baseline_confidence := some 1,
    llm_score := none, llm_confidence := none }

/-- 2001 attempted records of which exactly one is wrong-but-confident. -/
def c7Scenarios : List ScenarioRec :=
  c7Bad :: List.replicate 2000 c7Good

/-- The metrics compute_quality_metrics reports for [c7Bad, c7Good] on the
baseline source. -/
def c7SmallMetrics : SourceMetrics :=
  { precision := 1/2, «recall» := 1/2, wrong_but_confident_rate := 1/2,
    wrong_but_confident_count := 1, avg_confidence_correct := some 1,
    avg_confidence_incorrect := some 1, total_attempted := 2, total_correct := 1 }

/-- A record attempted only by the llm source. -/
def c8Rec : ScenarioRec :=
  { baseline_score := none, baseline_confidence := none,
    llm_score := some 1, llm_confidence := some 1 }

/-- An alert carrying a correlation tag, used to build concrete batches. -/
def mkTaggedAlert (i : String) (t : ℚ) (tag : String) : Alert :=
  { id := i, timestamp := t, tags := some [("incident", tag)], tenant_id := some "tenant-a" }

/-- A batch with group sizes 1 (tag x), 2 (tag y) and 3 (tag z). -/
def c1Alerts : List Alert :=
  [mkTaggedAlert "a1" 0 "x",
   mkTaggedAlert "b1" 0 "y", mkTaggedAlert "b2" 1 "y",
   mkTaggedAlert "c1" 0 "z", mkTaggedAlert "c2" 1 "z", mkTaggedAlert "c3" 2 "z"]

/-- A batch with a single two-alert group of tag w spanning 60 seconds. -/
def c4Alerts : List Alert :=
  [mkTaggedAlert "a1" 0 "w", mkTaggedAlert "a2" 60 "w"]

/-- The incident correlate_alerts produces from c4Alerts with min_alerts = 1,
a 15-minute window, clock string T and uuid hex ab. -/
def c4Incident : Incident :=
  { id := "w_T_ab", start_time := 0, end_time := 60, severity := "critical",
    status := "open", related_alert_ids := ["a1", "a2"],
    summary := "Correlated incident for tag: w", suspected_root_cause := none,
    impact_scope := some "network", owner := none, created_by := "correlator",
    tenant_id := some "tenant-a" }

/-- The incident the correlator produces for the y group of c1Alerts (clock
string T, uuid hex ab). -/
def c1IncY : Incident :=
  { id := "y_T_ab", start_time := 0, end_time := 1, severity := "critical",
    status := "open", related_alert_ids := ["b1", "b2"],
    summary := "Correlated incident for tag: y", suspected_root_cause := none,
    impact_scope := some "network", owner := none, created_by := "correlator",
    tenant_id := some "tenant-a" }

/-- The incident the correlator produces for the z group of c1Alerts (clock
string T, uuid hex ab). -/
def c1IncZ : Incident :=
  { id := "z_T_ab", start_time := 0, end_time := 2, severity := "critical",
    status := "open", related_alert_ids := ["c1", "c2", "c3"],
    summary := "Correlated incident for tag: z", suspected_root_cause := none,
    impact_scope := some "network", owner := none, created_by := "correlator",
    tenant_id := some "tenant-a" }

/-- The tag groups of c1Alerts, in first-occurrence order. -/
def c1Groups : List (String × List Alert) :=
  [("x", [mkTaggedAlert "a1" 0 "x"]),
   ("y", [mkTaggedAlert "b1" 0 "y", mkTaggedAlert "b2" 1 "y"]),
   ("z", [mkTaggedAlert "c1" 0 "z", mkTaggedAlert "c2" 1 "z", mkTaggedAlert "c3" 2 "z"])]

/-- Spec-side reading of the C1 noise filter (from the spec's words, for
comparison with the code): the threshold is taken over the groups that
survived the min_count filter; whenever at least two surviving groups exist
and their counts are not all equal, a surviving group whose count is at most
the 25th percentile of the surviving counts yields no incident. -/
def specC1NoiseFilter (table : List Alert) (window_minutes : Int) (min_alerts : ℕ)
    (alert_ids : Option (List String)) (ts short_hex : String) : Prop :=
  let surviving := (alertsByTag (selectedAlerts table alert_ids)).filter
    (fun g => min_alerts ≤ g.2.length)
  let counts := surviving.map (fun g => ((g.2.length : ℕ) : Int))
  2 ≤ surviving.length → counts.min? ≠ counts.max? →
    ∀ g ∈ surviving, (g.2.length : ℚ) ≤ _percentile counts 25 →
      ∀ inc ∈ correlate_alerts table window_minutes min_alerts alert_ids ts short_hex,
        inc.summary ≠ "Correlated incident for tag: " ++ g.1

/-! ## Helper lemmas -/

/-- The first element of a non-empty ascending-sorted integer list is a
minimum of the list. -/
theorem sorted_getD_zero_min {l : List Int} (hs : List.Sorted (· ≤ ·) l) (hne : l ≠ []) :
    l.getD 0 0 ∈ l ∧ ∀ y ∈ l, l.getD 0 0 ≤ y := by
  cases l with
  | nil => exact absurd rfl hne
  | cons a t =>
    refine ⟨List.mem_cons_self a t, ?_⟩
    intro y hy
    rcases List.mem_cons.mp hy with hy | hy
    · simp [hy]
    · simpa using (List.sorted_cons.mp hs).1 y hy

/-- The last element of a non-empty ascending-sorted integer list is a
maximum of the list. -/
theorem sorted_getD_last_max :
    ∀ (l : List Int), List.Sorted (· ≤ ·) l → l ≠ [] →
      l.getD (l.length - 1) 0 ∈ l ∧ ∀ y ∈ l, y ≤ l.getD (l.length - 1) 0
  | [], _, hne => absurd rfl hne
  | [a], _, _ => by simp
  | a :: b :: t, hs, _ => by
    obtain ⟨hab, hs2⟩ := List.sorted_cons.mp hs
    obtain ⟨ihmem, ihmax⟩ := sorted_getD_last_max (b :: t) hs2 (by simp)
    have hidx : (a :: b :: t).getD ((a :: b :: t).length - 1) 0
        = (b :: t).getD ((b :: t).length - 1) 0 := by
      simp [List.getD]
    refine ⟨?_, ?_⟩
    · rw [hidx]; exact List.mem_cons_of_mem a ihmem
    · intro y hy
      rw [hidx]
      rcases List.mem_cons.mp hy with hy | hy
      · subst hy; exact le_trans (hab _ ihmem) (le_refl _)
      · exact ihmax y hy

/-- In the interpolation regime (size at least two, 0 < pct < 100),
_percentile equals the spec-side interpolation at rank (n-1) * pct/100. -/
theorem percentile_interp_branch (values : List Int) (pct : ℚ)
    (h2 : 2 ≤ values.length) (hlo : 0 < pct) (hhi : pct < 100) :
    _percentile values pct =
      interpolate (List.insertionSort (· ≤ ·) values)
        (((values.length - 1 : ℕ) : ℚ) * (pct / 100)) := by
  have hvl : (List.insertionSort (· ≤ ·) values).length = values.length :=
    (List.perm_insertionSort _ values).length_eq
  simp only [_percentile]
  rw [hvl, if_neg (by omega), if_neg (by omega),
    if_neg (not_le.mpr hlo), if_neg (not_le.mpr hhi)]
  set vs := List.insertionSort (· ≤ ·) values with hvs
  set n := values.length with hn
  set k : ℚ := ((n - 1 : ℕ) : ℚ) * (pct / 100) with hk
  have hn1 : 1 ≤ n - 1 := by omega
  have hn1q : (1 : ℚ) ≤ ((n - 1 : ℕ) : ℚ) := by exact_mod_cast hn1
  have hkpos : 0 < k := by
    apply mul_pos
    · linarith
    · positivity
  have hkub : k < ((n - 1 : ℕ) : ℚ) := by
    calc k = ((n - 1 : ℕ) : ℚ) * (pct / 100) := rfl
      _ < ((n - 1 : ℕ) : ℚ) * 1 := by
          apply mul_lt_mul_of_pos_left _ (by linarith)
          linarith
      _ = ((n - 1 : ℕ) : ℚ) := mul_one _
  have hfl0 : 0 ≤ ⌊k⌋ := Int.floor_nonneg.mpr (le_of_lt hkpos)
  have hflub : ⌊k⌋ < ((n - 1 : ℕ) : ℤ) := Int.floor_lt.mpr (by exact_mod_cast hkub)
  have hfnat : ((⌊k⌋).toNat : ℤ) = ⌊k⌋ := Int.toNat_of_nonneg hfl0
  set f : ℕ := (⌊k⌋).toNat with hf
  have hfq : (f : ℚ) = ((⌊k⌋ : ℤ) : ℚ) := by exact_mod_cast hfnat
  have hfub : f + 1 ≤ n - 1 := by omega
  have hminc : min (f + 1) (n - 1) = f + 1 := min_eq_left hfub
  rw [hminc, if_neg (by omega : ¬ f = f + 1)]
  have hceil_cases : ⌈k⌉ = ⌊k⌋ ∨ ⌈k⌉ = ⌊k⌋ + 1 := by
    have h1 := Int.floor_le_ceil k
    have hc2 := Int.ceil_le_floor_add_one k
    omega
  rcases hceil_cases with hcf | hcf
  · -- k is an integer: both sides collapse to the element at floor(k)
    have hkint : k = ((⌊k⌋ : ℤ) : ℚ) := by
      have hlow := Int.floor_le k
      have hup := Int.le_ceil k
      rw [hcf] at hup
      exact le_antisymm hup hlow
    have hkf : k = (f : ℚ) := by rw [hfq]; exact hkint
    unfold interpolate
    rw [hcf, ← hf, ← hfq, hkf]
    push_cast
    ring
  · -- k is strictly between floor(k) and ceil(k) = floor(k) + 1
    have hcnat : (⌈k⌉).toNat = f + 1 := by omega
    unfold interpolate
    rw [hcnat, ← hf, ← hfq]
    push_cast
    ring

/-! ## C5: the percentile contract -/

/-- C5: _percentile satisfies its full contract: empty input returns the 0.0
sentinel; a singleton returns its element for every pct; for samples of size
at least two, pct <= 0 returns the minimum and pct >= 100 the maximum, and
for 0 < pct < 100 the result is the linear interpolation between the sorted
elements at floor(k) and ceil(k) for k = (n-1) * pct/100; and the input list
is returned unchanged by the state-passing view (the source sorts a copy). -/
theorem C5_percentile_contract :
    (∀ pct : ℚ, _percentile [] pct = 0)
  ∧ (∀ (x : Int) (pct : ℚ), _percentile [x] pct = (x : ℚ))
  ∧ (∀ (values : List Int) (pct : ℚ), 2 ≤ values.length → pct ≤ 0 →
      ∃ m ∈ values, _percentile values pct = (m : ℚ) ∧ ∀ y ∈ values, m ≤ y)
  ∧ (∀ (values : List Int) (pct : ℚ), 2 ≤ values.length → 100 ≤ pct →
      ∃ m ∈ values, _percentile values pct = (m : ℚ) ∧ ∀ y ∈ values, y ≤ m)
  ∧ (∀ (values : List Int) (pct : ℚ), 2 ≤ values.length → 0 < pct → pct < 100 →
      _percentile values pct =
        interpolate (List.insertionSort (· ≤ ·) values)
          (((values.length - 1 : ℕ) : ℚ) * (pct / 100)))
  ∧ (∀ (values : List Int) (pct : ℚ), percentileRun values pct = (_percentile values pct, values)) := by
  have hlen : ∀ values : List Int,
      (List.insertionSort (· ≤ ·) values).length = values.length :=
    fun values => (List.perm_insertionSort _ values).length_eq
  have hsorted : ∀ values : List Int, List.Sorted (· ≤ ·) (List.insertionSort (· ≤ ·) values) :=
    fun values => List.sorted_insertionSort _ values
  have hmem : ∀ (values : List Int) (x : Int),
      x ∈ List.insertionSort (· ≤ ·) values ↔ x ∈ values :=
    fun values x => (List.perm_insertionSort _ values).mem_iff
  refine ⟨fun pct => rfl, fun x pct => rfl, ?_, ?_, ?_, fun values pct => rfl⟩
  · -- pct <= 0 returns the minimum
    intro values pct h2 hp
    have hvl : (List.insertionSort (· ≤ ·) values).length = values.length := hlen values
    have hne : List.insertionSort (· ≤ ·) values ≠ [] := by
      intro h
      rw [h] at hvl
      simp at hvl
      omega
    obtain ⟨hmem0, hmin⟩ := sorted_getD_zero_min (hsorted values) hne
    refine ⟨(List.insertionSort (· ≤ ·) values).getD 0 0, (hmem values _).mp hmem0, ?_, ?_⟩
    · simp only [_percentile]
      rw [hvl, if_neg (by omega), if_neg (by omega), if_pos hp]
    · intro y hy
      exact hmin y ((hmem values y).mpr hy)
  · -- pct >= 100 returns the maximum
    intro values pct h2 hp
    have hvl : (List.insertionSort (· ≤ ·) values).length = values.length := hlen values
    have hne : List.insertionSort (· ≤ ·) values ≠ [] := by
      intro h
      rw [h] at hvl
      simp at hvl
      omega
    obtain ⟨hmem0, hmax⟩ := sorted_getD_last_max _ (hsorted values) hne
    refine ⟨(List.insertionSort (· ≤ ·) values).getD
        ((List.insertionSort (· ≤ ·) values).length - 1) 0,
      (hmem values _).mp hmem0, ?_, ?_⟩
    · simp only [_percentile]
      rw [hvl, if_neg (by omega), if_neg (by omega),
        if_neg (not_le.mpr (lt_of_lt_of_le (by norm_num) hp)), if_pos hp]
    · intro y hy
      exact hmax y ((hmem values y).mpr hy)
  · -- interpolation branch
    intro values pct h2 hlo hhi
    exact percentile_interp_branch values pct h2 hlo hhi

/-- Witness for C5: the spec's concrete regression sample evaluated through
the theorem, percentile([4, 10, 12, 30], 25) = 8.5. -/
theorem C5_percentile_contract_witness :
    _percentile [4, 10, 12, 30] 25 = 17/2 := by
  have h := C5_percentile_contract.2.2.2.2.1 [4, 10, 12, 30] 25
    (by decide) (by norm_num) (by norm_num)
  rw [h]
  have hsort : List.insertionSort (· ≤ ·) ([4, 10, 12, 30] : List Int) = [4, 10, 12, 30] := by
    decide
  have hk : ((([4, 10, 12, 30] : List Int).length - 1 : ℕ) : ℚ) * (25 / 100) = 3/4 := by
    norm_num
  rw [hsort, hk]
  unfold interpolate
  have hfl : ⌊(3 : ℚ)/4⌋ = 0 := by norm_num
  have hcl : ⌈(3 : ℚ)/4⌉ = 1 := by
    rw [Int.ceil_eq_iff]
    norm_num
  rw [hfl, hcl]
  norm_num [List.getD]

/-! ## C6: grouping by correlation tag is a total partition -/

/-- The accumulator of the tagKeys fold stays duplicate-free. -/
theorem tagKeys_go_nodup :
    ∀ (l : List Alert) (ks : List String), ks.Nodup →
      (l.foldl (fun ks a => if incidentTag a ∈ ks then ks else ks ++ [incidentTag a]) ks).Nodup := by
  intro l
  induction l with
  | nil => intro ks hks; exact hks
  | cons a l ih =>
    intro ks hks
    simp only [List.foldl_cons]
    apply ih
    by_cases hmem : incidentTag a ∈ ks
    · simpa [hmem] using hks
    · simp [hmem, List.nodup_append, hks]

/-- The accumulator of the tagKeys fold only grows. -/
theorem tagKeys_go_sub :
    ∀ (l : List Alert) (ks : List String),
      ks ⊆ l.foldl (fun ks a => if incidentTag a ∈ ks then ks else ks ++ [incidentTag a]) ks := by
  intro l
  induction l with
  | nil => intro ks; exact fun x hx => hx
  | cons a l ih =>
    intro ks
    simp only [List.foldl_cons]
    refine subset_trans ?_ (ih _)
    by_cases hmem : incidentTag a ∈ ks
    · simp [hmem]
    · simp only [hmem, if_false]
      exact List.subset_append_left _ _

/-- Every alert's tag ends up among the folded keys. -/
theorem tagKeys_go_mem :
    ∀ (l : List Alert) (ks : List String) (a : Alert), a ∈ l →
      incidentTag a ∈
        l.foldl (fun ks a => if incidentTag a ∈ ks then ks else ks ++ [incidentTag a]) ks := by
  intro l
  induction l with
  | nil => intro ks a ha; cases ha
  | cons b l ih =>
    intro ks a ha
    simp only [List.foldl_cons]
    rcases List.mem_cons.mp ha with ha | ha
    · subst ha
      apply tagKeys_go_sub
      by_cases hmem : incidentTag a ∈ ks
      · simpa [hmem]
      · simp [hmem]
    · exact ih _ a ha

/-- tagKeys is duplicate-free. -/
theorem tagKeys_nodup (alerts : List Alert) : (tagKeys alerts).Nodup :=
  tagKeys_go_nodup alerts [] List.nodup_nil

/-- Every alert's tag occurs in tagKeys. -/
theorem tag_mem_tagKeys {alerts : List Alert} {a : Alert} (ha : a ∈ alerts) :
    incidentTag a ∈ tagKeys alerts :=
  tagKeys_go_mem alerts [] a ha

/-- Splitting a list by a duplicate-free covering list of tag values and
concatenating the pieces is a permutation of the list. -/
theorem join_tagGroups_perm :
    ∀ (ks : List String) (l : List Alert), ks.Nodup →
      (∀ a ∈ l, incidentTag a ∈ ks) →
      List.Perm ((ks.map (fun t => l.filter (fun a => incidentTag a = t))).join) l := by
  intro ks
  induction ks with
  | nil =>
    intro l _ hcov
    have : l = [] := List.eq_nil_iff_forall_not_mem.mpr (fun a ha => by simpa using hcov a ha)
    simp [this]
  | cons t ks2 ih =>
    intro l hnd hcov
    have hnotmem : t ∉ ks2 := (List.nodup_cons.mp hnd).1
    have hnd2 : ks2.Nodup := (List.nodup_cons.mp hnd).2
    simp only [List.map_cons, List.join_cons]
    have hrest : ∀ t2 ∈ ks2,
        l.filter (fun a => incidentTag a = t2)
          = (l.filter (fun a => ¬ incidentTag a = t)).filter (fun a => incidentTag a = t2) := by
      intro t2 ht2
      have hne : t2 ≠ t := fun h => hnotmem (h ▸ ht2)
      rw [List.filter_filter]
      apply List.filter_congr
      intro a _
      by_cases h : incidentTag a = t2
      · have hat : ¬ incidentTag a = t := fun hh => hne (h ▸ hh ▸ rfl)
        simp [h, hat, hne]
      · simp [h]
    have hmap : ks2.map (fun t2 => l.filter (fun a => incidentTag a = t2))
        = ks2.map (fun t2 =>
            (l.filter (fun a => ¬ incidentTag a = t)).filter (fun a => incidentTag a = t2)) :=
      List.map_congr_left hrest
    rw [hmap]
    have hcov2 : ∀ a ∈ l.filter (fun a => ¬ incidentTag a = t), incidentTag a ∈ ks2 := by
      intro a ha
      obtain ⟨hal, hdec⟩ := List.mem_filter.mp ha
      have hne : ¬ incidentTag a = t := by simpa using hdec
      rcases List.mem_cons.mp (hcov a hal) with h | h
      · exact absurd h hne
      · exact h
    have hperm2 := ih (l.filter (fun a => ¬ incidentTag a = t)) hnd2 hcov2
    refine List.Perm.trans (List.Perm.append (List.Perm.refl _) hperm2) ?_
    have := List.filter_append_perm (fun a => decide (incidentTag a = t)) l
    simpa using this

/-- C6: grouping by correlation tag is a total partition of the batch: the
concatenation of the groups is a permutation of the input (no alert lost, no
alert duplicated), the group keys are pairwise distinct, every member of a
group carries that group's tag, and every alert lies in the group keyed by
its own tag. -/
theorem C6_grouping_total_partition (alerts : List Alert) :
    List.Perm (((alertsByTag alerts).map Prod.snd).join) alerts
  ∧ ((alertsByTag alerts).map Prod.fst).Nodup
  ∧ (∀ p ∈ alertsByTag alerts, ∀ a ∈ p.2, incidentTag a = p.1)
  ∧ (∀ a ∈ alerts, a ∈ tagGroup alerts (incidentTag a)) := by
  refine ⟨?_, ?_, ?_, ?_⟩
  · have h1 : (alertsByTag alerts).map Prod.snd
        = (tagKeys alerts).map (fun t => alerts.filter (fun a => incidentTag a = t)) := by
      simp [alertsByTag, tagGroup, Function.comp]
    rw [h1]
    exact join_tagGroups_perm (tagKeys alerts) alerts (tagKeys_nodup alerts)
      (fun a ha => tag_mem_tagKeys ha)
  · have h1 : (alertsByTag alerts).map Prod.fst = tagKeys alerts := by
      unfold alertsByTag
      rw [List.map_map]
      simp [Function.comp_def]
    rw [h1]
    exact tagKeys_nodup alerts
  · intro p hp a ha
    obtain ⟨t, _, hpt⟩ := List.mem_map.mp hp
    subst hpt
    simpa using (List.mem_filter.mp ha).2
  · intro a ha
    exact List.mem_filter.mpr ⟨ha, by simp⟩

/-- Witness for C6: a concrete two-alert batch, the first alert is in the
group keyed by its own tag. -/
theorem C6_grouping_total_partition_witness :
    { id := "a1", timestamp := 0, tags := some [("incident", "x")], tenant_id := none : Alert }
      ∈ tagGroup
        [{ id := "a1", timestamp := 0, tags := some [("incident", "x")], tenant_id := none },
         { id := "a2", timestamp := 1, tags := none, tenant_id := none }]
        (incidentTag
          { id := "a1", timestamp := 0, tags := some [("incident", "x")], tenant_id := none }) := by
  apply (C6_grouping_total_partition _).2.2.2
  simp

/-! ## C1: the adaptive noise threshold -/

/-- Appending to the same string on the left is injective. -/
theorem string_append_left_cancel {s a b : String} (h : s ++ a = s ++ b) : a = b := by
  have hd : (s ++ a).data = (s ++ b).data := by rw [h]
  rw [String.data_append, String.data_append] at hd
  exact String.ext (List.append_cancel_left hd)

/-- Concrete percentile evaluation: the 25th percentile of [1, 2, 3]. -/
theorem percentile_one_two_three : _percentile [1, 2, 3] 25 = 3/2 := by
  have h := percentile_interp_branch [1, 2, 3] 25 (by decide) (by norm_num) (by norm_num)
  rw [h]
  have hsort : List.insertionSort (· ≤ ·) ([1, 2, 3] : List Int) = [1, 2, 3] := by decide
  have hk : ((([1, 2, 3] : List Int).length - 1 : ℕ) : ℚ) * (25 / 100) = 1/2 := by norm_num
  rw [hsort, hk]
  unfold interpolate
  have hfl : ⌊(1 : ℚ)/2⌋ = 0 := by norm_num
  have hcl : ⌈(1 : ℚ)/2⌉ = 1 := by rw [Int.ceil_eq_iff]; norm_num
  rw [hfl, hcl]
  norm_num [List.getD]

/-- Concrete percentile evaluation: the 25th percentile of [2, 3]. -/
theorem percentile_two_three : _percentile [2, 3] 25 = 9/4 := by
  have h := percentile_interp_branch [2, 3] 25 (by decide) (by norm_num) (by norm_num)
  rw [h]
  have hsort : List.insertionSort (· ≤ ·) ([2, 3] : List Int) = [2, 3] := by decide
  have hk : ((([2, 3] : List Int).length - 1 : ℕ) : ℚ) * (25 / 100) = 1/4 := by norm_num
  rw [hsort, hk]
  unfold interpolate
  have hfl : ⌊(1 : ℚ)/4⌋ = 0 := by norm_num
  have hcl : ⌈(1 : ℚ)/4⌉ = 1 := by rw [Int.ceil_eq_iff]; norm_num
  rw [hfl, hcl]
  norm_num [List.getD]

/-- Grouping of the c1Alerts batch. -/
theorem c1_groups_eval : alertsByTag c1Alerts = c1Groups := by decide

/-- The code's noise threshold on the c1Alerts batch: the 25th percentile of
all three group counts [1, 2, 3]. -/
theorem c1_threshold_eval : noiseThreshold c1Groups = some (3/2 : ℚ) := by
  have hcounts : c1Groups.map (fun g => ((g.2.length : ℕ) : Int)) = [1, 2, 3] := by decide
  simp only [noiseThreshold]
  rw [hcounts, if_pos (by decide), percentile_one_two_three]

/-- Full run of the correlator on c1Alerts with min_alerts = 2. -/
theorem c1_run_min_two_eval :
    correlate_alerts c1Alerts 15 2 none "T" "ab" = [c1IncY, c1IncZ] := by
  have hsel : selectedAlerts c1Alerts none = c1Alerts := rfl
  simp only [correlate_alerts, hsel, c1_groups_eval, c1_threshold_eval]
  rw [if_neg (by decide)]
  simp only [List.filterMap_cons, List.filterMap_nil, c1Groups]
  norm_num [groupIncident, List.insertionSort, List.orderedInsert, tsLE, mkTaggedAlert,
    _make_incident_id, c1IncY, c1IncZ]
  exact ⟨⟨rfl, rfl⟩, ⟨rfl, rfl⟩⟩

/-- Full run of the correlator on c1Alerts with min_alerts = 1: the x group
falls below the adaptive threshold and is discarded. -/
theorem c1_run_min_one_eval :
    correlate_alerts c1Alerts 15 1 none "T" "ab" = [c1IncY, c1IncZ] := by
  have hsel : selectedAlerts c1Alerts none = c1Alerts := rfl
  simp only [correlate_alerts, hsel, c1_groups_eval, c1_threshold_eval]
  rw [if_neg (by decide)]
  simp only [List.filterMap_cons, List.filterMap_nil, c1Groups]
  norm_num [groupIncident, List.insertionSort, List.orderedInsert, tsLE, mkTaggedAlert,
    _make_incident_id, c1IncY, c1IncZ]
  exact ⟨⟨rfl, rfl⟩, ⟨rfl, rfl⟩⟩

/-- Counterexample for C1: on the batch with group counts [1, 2, 3] and
min_count = 2, the surviving groups have counts [2, 3] whose 25th percentile
is 9/4; the claim would discard the y group (2 <= 9/4), but the code, which
computes the threshold over all groups before the min_count filter
(obtaining 3/2), still creates an incident for it. -/
theorem C1_counterexample : ¬ specC1NoiseFilter c1Alerts 15 2 none "T" "ab" := by
  intro h
  simp only [specC1NoiseFilter] at h
  have hsurv : ((alertsByTag (selectedAlerts c1Alerts none)).filter
      (fun g => 2 ≤ g.2.length)) =
      [("y", [mkTaggedAlert "b1" 0 "y", mkTaggedAlert "b2" 1 "y"]),
       ("z", [mkTaggedAlert "c1" 0 "z", mkTaggedAlert "c2" 1 "z", mkTaggedAlert "c3" 2 "z"])] := by
    decide
  rw [hsurv] at h
  have hcounts : ([("y", [mkTaggedAlert "b1" 0 "y", mkTaggedAlert "b2" 1 "y"]),
       ("z", [mkTaggedAlert "c1" 0 "z", mkTaggedAlert "c2" 1 "z",
         mkTaggedAlert "c3" 2 "z"])].map (fun g => ((g.2.length : ℕ) : Int))) = [2, 3] := by
    decide
  rw [hcounts] at h
  have happ := h (by decide) (by decide)
    ("y", [mkTaggedAlert "b1" 0 "y", mkTaggedAlert "b2" 1 "y"])
    (by simp)
    (by rw [percentile_two_three]; norm_num)
    c1IncY
    (by rw [c1_run_min_two_eval]; simp)
  exact happ rfl

/-- C1 (amended): the adaptive noise threshold is computed over the counts of
ALL tag groups of the batch, before the min_count filter: it is defined
exactly when at least two groups exist and their counts are not all equal, in
which case it equals the 25th percentile of all the groups' counts; and every
group that passes the min_count filter but whose count is at most the
threshold yields no incident. -/
theorem C1_amended_noise_threshold (table : List Alert) (window_minutes : Int)
    (min_alerts : ℕ) (alert_ids : Option (List String)) (ts short_hex : String) :
    (∀ counts, counts = (alertsByTag (selectedAlerts table alert_ids)).map
        (fun g => ((g.2.length : ℕ) : Int)) →
      (2 ≤ counts.length → counts.min? ≠ counts.max? →
        noiseThreshold (alertsByTag (selectedAlerts table alert_ids))
          = some (_percentile counts 25))
      ∧ (counts.min? = counts.max? →
        noiseThreshold (alertsByTag (selectedAlerts table alert_ids)) = none))
  ∧ (∀ th, noiseThreshold (alertsByTag (selectedAlerts table alert_ids)) = some th →
      ∀ g ∈ alertsByTag (selectedAlerts table alert_ids),
        min_alerts ≤ g.2.length → (g.2.length : ℚ) ≤ th →
        ∀ inc ∈ correlate_alerts table window_minutes min_alerts alert_ids ts short_hex,
          inc.summary ≠ "Correlated incident for tag: " ++ g.1) := by
  constructor
  · intro counts hcounts
    subst hcounts
    constructor
    · intro h2 hne
      simp only [noiseThreshold]
      rw [if_pos ⟨h2, hne⟩]
    · intro heq
      simp only [noiseThreshold]
      rw [if_neg (by simp [heq])]
  · intro th hth g hg hmin hle inc hinc hsum
    simp only [correlate_alerts, hth] at hinc
    by_cases hempty : (selectedAlerts table alert_ids).isEmpty
    · rw [if_pos hempty] at hinc
      cases hinc
    · rw [if_neg hempty] at hinc
      obtain ⟨g2, hg2, hf⟩ := List.mem_filterMap.mp hinc
      simp only [groupIncident] at hf
      split_ifs at hf with h1 h2 h3
      injection hf with hf
      have hsummary : inc.summary = "Correlated incident for tag: " ++ g2.1 := by
        rw [← hf]
      have heq2 : "Correlated incident for tag: " ++ g2.1
          = "Correlated incident for tag: " ++ g.1 := by
        rw [← hsummary, hsum]
      have htag : g2.1 = g.1 := string_append_left_cancel heq2
      have hgeq : g2 = g := by
        obtain ⟨t2, _, hpt2⟩ := List.mem_map.mp hg2
        obtain ⟨t, _, hpt⟩ := List.mem_map.mp hg
        rw [← hpt2, ← hpt]
        rw [← hpt2, ← hpt] at htag
        simp only at htag
        rw [htag]
      rw [hgeq] at h2
      exact h2 (decide_eq_true hle)

/-- Witness for C1 (amended): on c1Alerts with min_alerts = 1 the threshold
is 3/2 and the x group (count 1 <= 3/2) produces no incident; in particular
the produced y incident is not an x incident. -/
theorem C1_amended_noise_threshold_witness :
    c1IncY.summary ≠ "Correlated incident for tag: " ++ "x" := by
  have hth : noiseThreshold (alertsByTag (selectedAlerts c1Alerts none)) = some (3/2 : ℚ) := by
    rw [show selectedAlerts c1Alerts none = c1Alerts from rfl, c1_groups_eval]
    exact c1_threshold_eval
  exact (C1_amended_noise_threshold c1Alerts 15 1 none "T" "ab").2 (3/2) hth
    ("x", [mkTaggedAlert "a1" 0 "x"])
    (by rw [show selectedAlerts c1Alerts none = c1Alerts from rfl, c1_groups_eval]; simp [c1Groups])
    (by decide)
    (by norm_num)
    c1IncY
    (by rw [c1_run_min_one_eval]; simp)

/-! ## C4: invariants of every constructed incident -/

/-- C4: every incident produced by correlate_alerts comes from a tag group of
at least min_alerts alerts, spans at most window_minutes * 60 seconds, has
severity critical and status open, carries the generated summary for its
tag, lists its member alert ids in ascending timestamp order, and copies its
tenant id from the earliest (first sorted) alert of the group. -/
theorem C4_incident_invariants (table : List Alert) (window_minutes : Int)
    (min_alerts : ℕ) (alert_ids : Option (List String)) (ts short_hex : String)
    (inc : Incident)
    (hmem : inc ∈ correlate_alerts table window_minutes min_alerts alert_ids ts short_hex) :
    inc.severity = "critical" ∧ inc.status = "open"
  ∧ inc.end_time - inc.start_time ≤ (window_minutes : ℚ) * 60
  ∧ ∃ tag group sorted,
      (tag, group) ∈ alertsByTag (selectedAlerts table alert_ids)
    ∧ min_alerts ≤ group.length
    ∧ inc.summary = "Correlated incident for tag: " ++ tag
    ∧ List.Perm sorted group
    ∧ (sorted.map Alert.timestamp).Sorted (· ≤ ·)
    ∧ inc.related_alert_ids = sorted.map Alert.id
    ∧ inc.tenant_id = (sorted.headD default).tenant_id
    ∧ inc.start_time = (sorted.headD default).timestamp := by
  simp only [correlate_alerts] at hmem
  by_cases hempty : (selectedAlerts table alert_ids).isEmpty
  · rw [if_pos hempty] at hmem
    cases hmem
  · rw [if_neg hempty] at hmem
    obtain ⟨⟨tag, group⟩, hg, hf⟩ := List.mem_filterMap.mp hmem
    simp only [groupIncident] at hf
    split_ifs at hf with h1 h2 h3
    injection hf with hf
    subst hf
    refine ⟨rfl, rfl, not_lt.mp h3, tag, group, List.insertionSort tsLE group,
      hg, not_lt.mp h1, rfl, List.perm_insertionSort tsLE group, ?_, rfl, rfl, rfl⟩
    have hs : List.Sorted tsLE (List.insertionSort tsLE group) :=
      List.sorted_insertionSort tsLE group
    exact List.pairwise_map.mpr hs

/-- Witness for C4: the two-alert batch of tag w with min_alerts = 1 and a
15-minute window produces an incident satisfying the invariants. -/
theorem C4_incident_invariants_witness :
    c4Incident.severity = "critical" ∧ c4Incident.status = "open"
  ∧ ∃ (tag : String) (group : List Alert),
      (tag, group) ∈ alertsByTag (selectedAlerts c4Alerts none)
    ∧ 1 ≤ group.length
    ∧ c4Incident.summary = "Correlated incident for tag: " ++ tag := by
  have heval : correlate_alerts c4Alerts 15 1 none "T" "ab" = [c4Incident] := by
    norm_num [correlate_alerts, selectedAlerts, pyTruthy, alertsByTag, tagKeys, tagGroup,
      incidentTag, noiseThreshold, groupIncident, _make_incident_id, List.insertionSort,
      List.orderedInsert, tsLE, mkTaggedAlert, c4Alerts, c4Incident, _percentile,
      List.filterMap_cons, List.filterMap_nil]
    rfl
  have h := C4_incident_invariants c4Alerts 15 1 none "T" "ab" c4Incident
    (by rw [heval]; exact List.mem_singleton.mpr rfl)
  obtain ⟨hsev, hst, _, tag, group, sorted, hg, hlen, hsum, _⟩ := h
  exact ⟨hsev, hst, tag, group, hg, hlen, hsum⟩

/-! ## C10: an empty alert_ids list is treated as no filter -/

/-- C10: correlate_alerts with alert_ids = [] behaves exactly like
alert_ids = None, because the Python truthiness test treats both as absent:
the whole alert table is correlated. -/
theorem C10_empty_alert_ids_is_no_filter
    (table : List Alert) (window_minutes : Int) (min_alerts : ℕ) (ts short_hex : String) :
    correlate_alerts table window_minutes min_alerts (some []) ts short_hex
      = correlate_alerts table window_minutes min_alerts none ts short_hex := rfl

/-! ## The matching loop of baseline_rca -/

/-- Characterization of the matching loop fold: either no rule beats the
starting accumulator and it is returned unchanged, or the result is the
first rule attaining the running maximum: every earlier rule scores strictly
less and every later rule scores no more. -/
theorem selectRule_fold_spec (text : String) :
    ∀ (rules : List Rule) (acc : Option Rule × ℕ),
      (rules.foldl (selectStep text) acc = acc ∧ ∀ r ∈ rules, countMatches r text ≤ acc.2)
    ∨ (∃ rs1 w rs2, rules = rs1 ++ w :: rs2
        ∧ rules.foldl (selectStep text) acc = (some w, countMatches w text)
        ∧ acc.2 < countMatches w text
        ∧ (∀ x ∈ rs1, countMatches x text < countMatches w text)
        ∧ (∀ x ∈ rs2, countMatches x text ≤ countMatches w text)) := by
  intro rules
  induction rules with
  | nil =>
    intro acc
    left
    exact ⟨rfl, by simp⟩
  | cons r rs ih =>
    intro acc
    rw [List.foldl_cons]
    by_cases hc : acc.2 < countMatches r text
    · have hstep : selectStep text acc r = (some r, countMatches r text) := by
        simp [selectStep, hc]
      rw [hstep]
      rcases ih (some r, countMatches r text) with ⟨heq, hall⟩ | ⟨rs1, w, rs2, hsplit, heq, hlt, hpre, hpost⟩
      · right
        exact ⟨[], r, rs, by simp, heq, hc, by simp, fun x hx => hall x hx⟩
      · right
        refine ⟨r :: rs1, w, rs2, by rw [hsplit]; rfl, heq, lt_trans hc hlt, ?_, hpost⟩
        intro x hx
        rcases List.mem_cons.mp hx with hx | hx
        · subst hx; exact hlt
        · exact hpre x hx
    · have hstep : selectStep text acc r = acc := by
        simp [selectStep, hc]
      rw [hstep]
      rcases ih acc with ⟨heq, hall⟩ | ⟨rs1, w, rs2, hsplit, heq, hlt, hpre, hpost⟩
      · left
        refine ⟨heq, ?_⟩
        intro x hx
        rcases List.mem_cons.mp hx with hx | hx
        · subst hx; exact not_lt.mp hc
        · exact hall x hx
      · right
        refine ⟨r :: rs1, w, rs2, by rw [hsplit]; rfl, heq, hlt, ?_, hpost⟩
        intro x hx
        rcases List.mem_cons.mp hx with hx | hx
        · subst hx; exact lt_of_le_of_lt (not_lt.mp hc) hlt
        · exact hpre x hx

/-! ## C3: rule selection of baseline_rca -/

/-- C3: on any input, when no rule pattern occurs in the lowercased corpus
(summary plus type and message of at most the first 20 alerts), baseline_rca
selects the last rule of the table with match_count 0; when some rule
matches, the selected rule is the first one attaining the strictly highest
match count: every earlier rule in table order scores strictly less and
every rule scores no more. -/
theorem C3_rule_selection (incident_summary : String) (alerts : Option (List AlertD))
    (now_iso : String) :
    ((∀ r ∈ BASELINE_RULES, countMatches r (searchText incident_summary alerts) = 0) →
      (baseline_rca incident_summary alerts now_iso).hypotheses
          = [(BASELINE_RULES.getLastD default).hypothesis]
      ∧ (baseline_rca incident_summary alerts now_iso).confidence_scores
          = [((BASELINE_RULES.getLastD default).hypothesis,
              (BASELINE_RULES.getLastD default).confidence)]
      ∧ (baseline_rca incident_summary alerts now_iso).evidence_match_count = 0)
  ∧ ((∃ r ∈ BASELINE_RULES, 0 < countMatches r (searchText incident_summary alerts)) →
      ∃ rs1 w rs2, BASELINE_RULES = rs1 ++ w :: rs2
        ∧ (baseline_rca incident_summary alerts now_iso).hypotheses = [w.hypothesis]
        ∧ (baseline_rca incident_summary alerts now_iso).confidence_scores
            = [(w.hypothesis, w.confidence)]
        ∧ (baseline_rca incident_summary alerts now_iso).evidence_match_count
            = countMatches w (searchText incident_summary alerts)
        ∧ 0 < countMatches w (searchText incident_summary alerts)
        ∧ (∀ x ∈ rs1, countMatches x (searchText incident_summary alerts)
            < countMatches w (searchText incident_summary alerts))
        ∧ (∀ x ∈ BASELINE_RULES, countMatches x (searchText incident_summary alerts)
            ≤ countMatches w (searchText incident_summary alerts))) := by
  rcases selectRule_fold_spec (searchText incident_summary alerts) BASELINE_RULES (none, 0)
    with ⟨heq, hall⟩ | ⟨rs1, w, rs2, hsplit, heq, hlt, hpre, hpost⟩
  · have hsel : selectRule BASELINE_RULES (searchText incident_summary alerts) = (none, 0) := heq
    constructor
    · intro _
      refine ⟨?_, ?_, ?_⟩ <;>
        simp [baseline_rca, baseline_rca_with, hsel]
    · intro hex
      obtain ⟨r, hr, hpos⟩ := hex
      exact absurd (hall r hr) (by omega)
  · have hsel : selectRule BASELINE_RULES (searchText incident_summary alerts)
        = (some w, countMatches w (searchText incident_summary alerts)) := heq
    constructor
    · intro hzero
      have hw : w ∈ BASELINE_RULES := by
        rw [hsplit]
        exact List.mem_append_right _ (List.mem_cons_self _ _)
      exact absurd (hzero w hw) (by omega)
    · intro _
      refine ⟨rs1, w, rs2, hsplit, ?_, ?_, ?_, by omega, hpre, ?_⟩
      · simp [baseline_rca, baseline_rca_with, hsel]
      · simp [baseline_rca, baseline_rca_with, hsel]
      · simp [baseline_rca, baseline_rca_with, hsel]
      · intro x hx
        rw [hsplit] at hx
        rcases List.mem_append.mp hx with hx | hx
        · exact le_of_lt (hpre x hx)
        · rcases List.mem_cons.mp hx with hx | hx
          · subst hx; exact le_refl _
          · exact hpost x hx

/-- Witness for C3: on the corpus "dns servfail outage" some rule matches and
the selection facts hold concretely. -/
theorem C3_rule_selection_witness :
    ∃ rs1 w rs2, BASELINE_RULES = rs1 ++ w :: rs2
      ∧ (baseline_rca "dns servfail outage" none "T").hypotheses = [w.hypothesis]
      ∧ (baseline_rca "dns servfail outage" none "T").confidence_scores
          = [(w.hypothesis, w.confidence)]
      ∧ (baseline_rca "dns servfail outage" none "T").evidence_match_count
          = countMatches w (searchText "dns servfail outage" none)
      ∧ 0 < countMatches w (searchText "dns servfail outage" none)
      ∧ (∀ x ∈ rs1, countMatches x (searchText "dns servfail outage" none)
          < countMatches w (searchText "dns servfail outage" none))
      ∧ (∀ x ∈ BASELINE_RULES, countMatches x (searchText "dns servfail outage" none)
          ≤ countMatches w (searchText "dns servfail outage" none)) :=
  (C3_rule_selection "dns servfail outage" none "T").2 (by decide)

/-! ## C2: determinism of baseline_rca -/

/-- Counterexample for C2: two calls on the identical (summary, alerts) input
at distinct clock readings return records that are not identical in every
field: the generated_at timestamp differs. -/
theorem C2_counterexample :
    baseline_rca "network degradation" none "2026-02-09T14:30:22"
      ≠ baseline_rca "network degradation" none "2026-02-09T14:30:23" := by
  intro h
  have h2 := congrArg RcaResult.generated_at h
  exact absurd h2 (by decide)

/-- C2 (amended): baseline_rca is deterministic in every field except the
generated_at timestamp: for the identical (summary, alerts) input, the
incident summary, hypotheses, confidence scores, evidence text, match_count
and model tag coincide across calls, whatever the two clock readings. -/
theorem C2_amended_deterministic_except_timestamp (incident_summary : String)
    (alerts : Option (List AlertD)) (t1 t2 : String) :
    (baseline_rca incident_summary alerts t1).incident_summary
        = (baseline_rca incident_summary alerts t2).incident_summary
  ∧ (baseline_rca incident_summary alerts t1).hypotheses
        = (baseline_rca incident_summary alerts t2).hypotheses
  ∧ (baseline_rca incident_summary alerts t1).confidence_scores
        = (baseline_rca incident_summary alerts t2).confidence_scores
  ∧ (baseline_rca incident_summary alerts t1).evidence_alerts
        = (baseline_rca incident_summary alerts t2).evidence_alerts
  ∧ (baseline_rca incident_summary alerts t1).evidence_match_count
        = (baseline_rca incident_summary alerts t2).evidence_match_count
  ∧ (baseline_rca incident_summary alerts t1).model
        = (baseline_rca incident_summary alerts t2).model :=
  ⟨rfl, rfl, rfl, rfl, rfl, rfl⟩

/-! ## C9: no load-time validation of the rule table -/

/-- Counterexample for C9: a table containing a rule with an empty pattern
list is accepted at load time without any error, and baseline_rca runs
normally over it per-request. -/
theorem C9_counterexample :
    loadRuleTable (c9BadRule :: BASELINE_RULES) = Except.ok (c9BadRule :: BASELINE_RULES)
  ∧ (baseline_rca_with (c9BadRule :: BASELINE_RULES) "dns servfail" none "T").hypotheses
      = ["authoritative DNS cluster outage in region-east"] :=
  ⟨rfl, by decide⟩

/-- C9 (amended): there is no load-time validation: any rule table, including
one holding a rule with an empty pattern list, loads successfully; such a
rule always scores zero matches and the matching loop never selects it (it
could only surface through the last-rule fallback). -/
theorem C9_amended_invalid_rule_inert (rules : List Rule) (text : String) (r : Rule)
    (hr : r.patterns = []) :
    loadRuleTable rules = Except.ok rules
  ∧ countMatches r text = 0
  ∧ (selectRule rules text).1 ≠ some r := by
  refine ⟨rfl, by simp [countMatches, hr], ?_⟩
  intro hsel
  rcases selectRule_fold_spec text rules (none, 0)
    with ⟨heq, _⟩ | ⟨rs1, w, rs2, _, heq, hlt, _, _⟩
  · have : (selectRule rules text).1 = none := by
      rw [show selectRule rules text = rules.foldl (selectStep text) (none, 0) from rfl, heq]
    rw [this] at hsel
    cases hsel
  · have hw : (selectRule rules text).1 = some w := by
      rw [show selectRule rules text = rules.foldl (selectStep text) (none, 0) from rfl, heq]
    rw [hw] at hsel
    injection hsel with hsel
    rw [hsel] at hlt
    rw [show countMatches r text = 0 from by simp [countMatches, hr]] at hlt
    exact absurd hlt (by omega)

/-- Witness for C9 (amended): the concrete invalid table and an arbitrary
corpus. -/
theorem C9_amended_invalid_rule_inert_witness :
    loadRuleTable (c9BadRule :: BASELINE_RULES) = Except.ok (c9BadRule :: BASELINE_RULES)
  ∧ countMatches c9BadRule "network outage" = 0
  ∧ (selectRule (c9BadRule :: BASELINE_RULES) "network outage").1 ≠ some c9BadRule :=
  C9_amended_invalid_rule_inert (c9BadRule :: BASELINE_RULES) "network outage" c9BadRule rfl

/-! ## C8: empty aggregate input yields an explicit no-data result -/

/-- C8: compute_quality_metrics reports None (not a numeric zero) for a
source on the empty record list, and more generally whenever the source has
no attempted record. -/
theorem C8_no_attempted_is_none (scenarios : List ScenarioRec) (source : Source) :
    compute_quality_metrics [] source = none
  ∧ ((∀ s ∈ scenarios, scoreOf source s = none) →
      compute_quality_metrics scenarios source = none) := by
  constructor
  · rfl
  · intro h
    have hfil : scenarios.filter (fun s => (scoreOf source s).isSome) = [] := by
      rw [List.filter_eq_nil]
      intro s hs
      simp [h s hs]
    simp [compute_quality_metrics, hfil]

/-- Witness for C8: a record attempted only by the llm source yields None
for the baseline source. -/
theorem C8_no_attempted_is_none_witness :
    compute_quality_metrics [c8Rec] Source.baseline = none :=
  (C8_no_attempted_is_none [c8Rec] Source.baseline).2 (by decide)

/-! ## C7: the wrong-but-confident rate -/

/-- Filtering a replicated list with a predicate true on the element keeps
it unchanged. -/
theorem filter_replicate_of_pos {α : Type} (p : α → Bool) (a : α) (h : p a = true) :
    ∀ n, (List.replicate n a).filter p = List.replicate n a := by
  intro n
  induction n with
  | zero => rfl
  | succ n ih => simp [List.replicate_succ, List.filter_cons, h, ih]

/-- Filtering a replicated list with a predicate false on the element yields
the empty list. -/
theorem filter_replicate_of_neg {α : Type} (p : α → Bool) (a : α) (h : p a = false) :
    ∀ n, (List.replicate n a).filter p = [] := by
  intro n
  induction n with
  | zero => rfl
  | succ n ih => simp [List.replicate_succ, List.filter_cons, h, ih]

/-- Round-half-even of a rational at least 1 is at least 1. -/
theorem roundHalfEven_ge_one {x : ℚ} (h : 1 ≤ x) : 1 ≤ roundHalfEven x := by
  simp only [roundHalfEven]
  have h1 : 1 ≤ ⌊x⌋ := by
    rw [Int.le_floor]
    exact_mod_cast h
  split_ifs <;> omega

/-- The wrong-but-confident count and rate fields of a produced metrics
record, in terms of the attempted and wrong-confident sublists. -/
theorem cqm_wrong_confident_fields (scenarios : List ScenarioRec) (source : Source)
    (m : SourceMetrics) (hm : compute_quality_metrics scenarios source = some m) :
    m.wrong_but_confident_count
      = ((scenarios.filter (fun s => (scoreOf source s).isSome)).filter
          (fun s => (scoreOf source s).getD 0 < WRONG_CONFIDENT_SIM
            ∧ WRONG_CONFIDENT_CONF ≤ (confOf source s).getD 0)).length
  ∧ m.wrong_but_confident_rate
      = pyRound3 (((((scenarios.filter (fun s => (scoreOf source s).isSome)).filter
          (fun s => (scoreOf source s).getD 0 < WRONG_CONFIDENT_SIM
            ∧ WRONG_CONFIDENT_CONF ≤ (confOf source s).getD 0)).length : ℕ) : ℚ)
        / ((scenarios.filter (fun s => (scoreOf source s).isSome)).length : ℚ)) := by
  simp only [compute_quality_metrics] at hm
  split at hm
  · cases hm
  · injection hm with hm
    rw [← hm]
    exact ⟨rfl, rfl⟩

/-- Counterexample for C7: with 2001 attempted records of which exactly one
is wrong-but-confident, the reported rate round(1/2001, 3) is 0, although a
wrong-but-confident attempted record exists (the count field still shows
it). -/
theorem C7_counterexample :
    c7Bad ∈ c7Scenarios
  ∧ (scoreOf Source.baseline c7Bad).isSome = true
  ∧ (scoreOf Source.baseline c7Bad).getD 0 < WRONG_CONFIDENT_SIM
  ∧ WRONG_CONFIDENT_CONF ≤ (confOf Source.baseline c7Bad).getD 0
  ∧ ∃ m, compute_quality_metrics c7Scenarios Source.baseline = some m
      ∧ m.wrong_but_confident_rate = 0
      ∧ 0 < m.wrong_but_confident_count := by
  have hA : c7Scenarios.filter (fun s => (scoreOf Source.baseline s).isSome) = c7Scenarios := by
    have hrep := filter_replicate_of_pos
      (fun s => (scoreOf Source.baseline s).isSome) c7Good rfl 2000
    rw [show c7Scenarios = c7Bad :: List.replicate 2000 c7Good from rfl,
      List.filter_cons, hrep,
      if_pos (show (scoreOf Source.baseline c7Bad).isSome = true from rfl)]
  have hgoodF : decide ((scoreOf Source.baseline c7Good).getD 0 < WRONG_CONFIDENT_SIM
      ∧ WRONG_CONFIDENT_CONF ≤ (confOf Source.baseline c7Good).getD 0) = false := by
    rw [decide_eq_false_iff_not]
    norm_num [scoreOf, confOf, c7Good, WRONG_CONFIDENT_SIM, WRONG_CONFIDENT_CONF]
  have hwc : c7Scenarios.filter
      (fun s => (scoreOf Source.baseline s).getD 0 < WRONG_CONFIDENT_SIM
        ∧ WRONG_CONFIDENT_CONF ≤ (confOf Source.baseline s).getD 0) = [c7Bad] := by
    have hrep := filter_replicate_of_neg
      (fun s => decide ((scoreOf Source.baseline s).getD 0 < WRONG_CONFIDENT_SIM
        ∧ WRONG_CONFIDENT_CONF ≤ (confOf Source.baseline s).getD 0)) c7Good hgoodF 2000
    rw [show c7Scenarios = c7Bad :: List.replicate 2000 c7Good from rfl,
      List.filter_cons, hrep,
      if_pos (show decide ((scoreOf Source.baseline c7Bad).getD 0 < WRONG_CONFIDENT_SIM
        ∧ WRONG_CONFIDENT_CONF ≤ (confOf Source.baseline c7Bad).getD 0) = true from by
          rw [decide_eq_true_eq]
          norm_num [scoreOf, confOf, c7Bad, WRONG_CONFIDENT_SIM, WRONG_CONFIDENT_CONF])]
  have hALen : c7Scenarios.length = 2001 := by
    rw [show c7Scenarios = c7Bad :: List.replicate 2000 c7Good from rfl,
      List.length_cons, List.length_replicate]
  obtain ⟨m, hm⟩ : ∃ m, compute_quality_metrics c7Scenarios Source.baseline = some m := by
    simp only [compute_quality_metrics, hA]
    rw [if_neg (show ¬(c7Scenarios.isEmpty = true) from fun h => nomatch h)]
    exact ⟨_, rfl⟩
  obtain ⟨hcount, hrate⟩ := cqm_wrong_confident_fields _ _ _ hm
  rw [hA, hwc] at hcount hrate
  rw [hALen] at hrate
  refine ⟨List.mem_cons_self _ _, rfl,
    by norm_num [scoreOf, c7Bad, WRONG_CONFIDENT_SIM],
    by norm_num [confOf, c7Bad, WRONG_CONFIDENT_CONF],
    m, hm, ?_, ?_⟩
  · rw [hrate]
    have hfl : ⌊(((1 : ℕ) : ℚ) / ((2001 : ℕ) : ℚ)) * 1000⌋ = 0 := by
      norm_num
    norm_num [pyRound3, roundHalfEven]
  · rw [hcount]
    norm_num

/-- C7 (amended): the wrong-but-confident count is positive exactly when an
attempted record with score below 0.5 and confidence at least 0.7 exists;
the reported rate is 0 when no such record exists, and it is strictly
positive when one exists provided there are at most 1000 attempted records
(for larger attempted sets the three-decimal rounding of the rate can reach
0.0 even though the count is positive). -/
theorem C7_amended_wrong_confident_rate (scenarios : List ScenarioRec) (source : Source)
    (m : SourceMetrics) (hm : compute_quality_metrics scenarios source = some m) :
    ((∀ s ∈ scenarios.filter (fun s => (scoreOf source s).isSome),
        ¬((scoreOf source s).getD 0 < WRONG_CONFIDENT_SIM
          ∧ WRONG_CONFIDENT_CONF ≤ (confOf source s).getD 0)) →
      m.wrong_but_confident_rate = 0 ∧ m.wrong_but_confident_count = 0)
  ∧ ((∃ s ∈ scenarios.filter (fun s => (scoreOf source s).isSome),
        (scoreOf source s).getD 0 < WRONG_CONFIDENT_SIM
          ∧ WRONG_CONFIDENT_CONF ≤ (confOf source s).getD 0) →
      0 < m.wrong_but_confident_count
      ∧ ((scenarios.filter (fun s => (scoreOf source s).isSome)).length ≤ 1000 →
          0 < m.wrong_but_confident_rate)) := by
  obtain ⟨hcount, hrate⟩ := cqm_wrong_confident_fields _ _ _ hm
  constructor
  · intro hnone
    have hwc : (scenarios.filter (fun s => (scoreOf source s).isSome)).filter
        (fun s => (scoreOf source s).getD 0 < WRONG_CONFIDENT_SIM
          ∧ WRONG_CONFIDENT_CONF ≤ (confOf source s).getD 0) = [] := by
      rw [List.filter_eq_nil]
      intro s hs
      simpa using hnone s hs
    rw [hwc] at hcount hrate
    refine ⟨?_, by simpa using hcount⟩
    rw [hrate]
    norm_num [pyRound3, roundHalfEven]
  · intro hex
    obtain ⟨s, hsA, hsP⟩ := hex
    have hmem : s ∈ (scenarios.filter (fun s => (scoreOf source s).isSome)).filter
        (fun s => (scoreOf source s).getD 0 < WRONG_CONFIDENT_SIM
          ∧ WRONG_CONFIDENT_CONF ≤ (confOf source s).getD 0) :=
      List.mem_filter.mpr ⟨hsA, by simpa using hsP⟩
    have hwlen : 0 < ((scenarios.filter (fun s => (scoreOf source s).isSome)).filter
        (fun s => (scoreOf source s).getD 0 < WRONG_CONFIDENT_SIM
          ∧ WRONG_CONFIDENT_CONF ≤ (confOf source s).getD 0)).length :=
      List.length_pos.mpr (List.ne_nil_of_mem hmem)
    have hAlen : 0 < (scenarios.filter (fun s => (scoreOf source s).isSome)).length :=
      List.length_pos.mpr (List.ne_nil_of_mem hsA)
    refine ⟨by rw [hcount]; exact hwlen, ?_⟩
    intro hA1000
    rw [hrate]
    unfold pyRound3
    have hx : (1 : ℚ) ≤ ((((scenarios.filter (fun s => (scoreOf source s).isSome)).filter
        (fun s => (scoreOf source s).getD 0 < WRONG_CONFIDENT_SIM
          ∧ WRONG_CONFIDENT_CONF ≤ (confOf source s).getD 0)).length : ℕ) : ℚ)
        / ((scenarios.filter (fun s => (scoreOf source s).isSome)).length : ℚ) * 1000 := by
      rw [div_mul_eq_mul_div, one_le_div (by exact_mod_cast hAlen)]
      have hw1 : (1 : ℚ) ≤ (((scenarios.filter (fun s => (scoreOf source s).isSome)).filter
          (fun s => (scoreOf source s).getD 0 < WRONG_CONFIDENT_SIM
            ∧ WRONG_CONFIDENT_CONF ≤ (confOf source s).getD 0)).length : ℚ) := by
        exact_mod_cast hwlen
      have hA1000q : ((scenarios.filter (fun s => (scoreOf source s).isSome)).length : ℚ)
          ≤ 1000 := by
        exact_mod_cast hA1000
      nlinarith
    apply div_pos _ (by norm_num : (0 : ℚ) < 1000)
    have hre := roundHalfEven_ge_one hx
    have hq : (1 : ℚ) ≤ ((roundHalfEven
        (((((scenarios.filter (fun s => (scoreOf source s).isSome)).filter
          (fun s => (scoreOf source s).getD 0 < WRONG_CONFIDENT_SIM
            ∧ WRONG_CONFIDENT_CONF ≤ (confOf source s).getD 0)).length : ℕ) : ℚ)
        / ((scenarios.filter (fun s => (scoreOf source s).isSome)).length : ℚ) * 1000) : ℤ) : ℚ) := by
      exact_mod_cast hre
    linarith

/-- Witness for C7 (amended): with records [c7Bad, c7Good] the count is 1 and
the rate round(1/2, 3) = 0.5 is strictly positive. -/
theorem C7_amended_wrong_confident_rate_witness :
    ∃ m, compute_quality_metrics [c7Bad, c7Good] Source.baseline = some m
      ∧ 0 < m.wrong_but_confident_count
      ∧ 0 < m.wrong_but_confident_rate := by
  obtain ⟨m, hm⟩ : ∃ m, compute_quality_metrics [c7Bad, c7Good] Source.baseline = some m := by
    simp only [compute_quality_metrics]
    rw [if_neg (by simp [List.filter_cons, c7Bad, scoreOf])]
    exact ⟨_, rfl⟩
  have h := (C7_amended_wrong_confident_rate [c7Bad, c7Good] Source.baseline m hm).2
    ⟨c7Bad,
      List.mem_filter.mpr ⟨List.mem_cons_self _ _, rfl⟩,
      by norm_num [scoreOf, confOf, c7Bad, WRONG_CONFIDENT_SIM, WRONG_CONFIDENT_CONF]⟩
  refine ⟨m, hm, h.1, h.2 ?_⟩
  have : ([c7Bad, c7Good].filter (fun s => (scoreOf Source.baseline s).isSome)).length ≤ 2 := by
    have := List.length_filter_le (fun s => (scoreOf Source.baseline s).isSome) [c7Bad, c7Good]
    simpa using this
  omega

end TeleOps
